import Mathlib

/-
Verification of the conversation-history normalization and response-extraction
adapter in src/1_foundations/app.py.

The embedding models the dynamically typed Python values that flow through the
adapter with the inductive type GVal: Python None, str, list/tuple, dict with
string keys, and arbitrary SDK objects.  An object carries its attribute table
together with the (opaque) string produced by the Python built-in str() on it.
Python truthiness, attribute access with a None default, subscripting, and
iteration are modelled explicitly; operations that can raise in Python return
an Except value whose error component carries the description of the raised
exception, and a try/except block is modelled by matching on that Except.
-/

set_option autoImplicit false

/-- A dynamically typed Python value, as used by app.py: None, a string, a
list or tuple, a dict with string keys (association list, in insertion
order), or an SDK object with an attribute table and an opaque str() form. -/
inductive GVal where
  | vnone : GVal
  | vstr : String → GVal
  | vlist : List GVal → GVal
  | vdict : List (String × GVal) → GVal
  | vobj : List (String × GVal) → String → GVal

mutual

/-- Python repr() of a value: strings are quoted, containers recurse, an
object renders as its carried opaque form. -/
def gRepr : GVal → String
  | GVal.vnone => "None"
  | GVal.vstr s => "\x27" ++ s ++ "\x27"
  | GVal.vlist xs => "[" ++ gReprList xs ++ "]"
  | GVal.vdict kvs => "\x7b" ++ gReprDict kvs ++ "\x7d"
  | GVal.vobj _ r => r

/-- Comma-separated repr of list elements. -/
def gReprList : List GVal → String
  | [] => ""
  | [x] => gRepr x
  | x :: xs => gRepr x ++ ", " ++ gReprList xs

/-- Comma-separated repr of dict entries. -/
def gReprDict : List (String × GVal) → String
  | [] => ""
  | [(k, v)] => "\x27" ++ k ++ "\x27: " ++ gRepr v
  | (k, v) :: kvs => "\x27" ++ k ++ "\x27: " ++ gRepr v ++ ", " ++ gReprDict kvs

end

/-- Python str() of a value: a string is itself, None prints as None, and
containers print via repr of their elements. -/
def gStr : GVal → String
  | GVal.vnone => "None"
  | GVal.vstr s => s
  | GVal.vobj _ r => r
  | v => gRepr v

/-- Python truthiness: None, the empty string, the empty list and the empty
dict are falsy; SDK objects are truthy by default. -/
def gTruthy : GVal → Bool
  | GVal.vnone => false
  | GVal.vstr s => s ≠ ""
  | GVal.vlist xs => ¬ xs.isEmpty
  | GVal.vdict kvs => ¬ kvs.isEmpty
  | GVal.vobj _ _ => true

/-- The Python or operator: the left operand if truthy, else the right one. -/
def gOr (a b : GVal) : GVal :=
  if gTruthy a then a else b

/-- First-match lookup in an association list (dict with string keys). -/
def lookupKey : List (String × GVal) → String → Option GVal
  | [], _ => Option.none
  | (k, v) :: rest, key => if k = key then some v else lookupKey rest key

/-- Python d.get(key), whose default is None. -/
def dictGet (kvs : List (String × GVal)) (key : String) : GVal :=
  match lookupKey kvs key with
  | some v => v
  | Option.none => GVal.vnone

/-- Python key in d. -/
def hasKey (kvs : List (String × GVal)) (key : String) : Bool :=
  (lookupKey kvs key).isSome

/-- Python getattr(o, name, None): attribute lookup on an object, None as the
default; non-object values have none of the attributes app.py asks for. -/
def getattrD (o : GVal) (name : String) : GVal :=
  match o with
  | GVal.vobj attrs _ =>
      match lookupKey attrs name with
      | some v => v
      | Option.none => GVal.vnone
  | _ => GVal.vnone

/-- Python v == lit for a string literal lit: true exactly on the equal str. -/
def isStrVal (v : GVal) (lit : String) : Bool :=
  match v with
  | GVal.vstr s => s = lit
  | _ => false

/-- Whether a value is a Python str. -/
def GVal.isStr : GVal → Bool
  | GVal.vstr _ => true
  | _ => false

/-- The Python type name of a value, as it appears in error messages. -/
def typeName : GVal → String
  | GVal.vnone => "NoneType"
  | GVal.vstr _ => "str"
  | GVal.vlist _ => "list"
  | GVal.vdict _ => "dict"
  | GVal.vobj _ _ => "object"

/-- A normalized conversation turn: the (user_msg, model_msg) pair produced by
normalize_history in app.py. -/
structure Turn where
  user_msg : String
  model_msg : String
deriving DecidableEq, Repr

/-- The coercion app.py applies to every extracted field: the empty string if
the value is None, else its str() form. -/
def strOrEmpty : GVal → String
  | GVal.vnone => ""
  | v => gStr v

/-- The per-element body of the normalize_history loop (app.py lines 146-186):
lists and tuples take their first two elements, dicts are dispatched on their
keys in the order user/assistant, sender/message, role/content, then fall back
to their first two values in iteration order, and anything else is
stringified into the user slot. -/
def normalizeItem (item : GVal) : Turn :=
  match item with
  | GVal.vlist xs =>
      match xs with
      | x :: y :: _ => ⟨strOrEmpty x, strOrEmpty y⟩
      | [x] => ⟨strOrEmpty x, ""⟩
      | [] => ⟨"", ""⟩
  | GVal.vdict kvs =>
      if hasKey kvs "user" && hasKey kvs "assistant" then
        ⟨strOrEmpty (dictGet kvs "user"), strOrEmpty (dictGet kvs "assistant")⟩
      else if hasKey kvs "sender" && hasKey kvs "message" then
        if isStrVal (dictGet kvs "sender") "user" then
          ⟨strOrEmpty (dictGet kvs "message"), ""⟩
        else
          ⟨"", strOrEmpty (dictGet kvs "message")⟩
      else if hasKey kvs "role" && hasKey kvs "content" then
        if isStrVal (dictGet kvs "role") "user" then
          ⟨strOrEmpty (dictGet kvs "content"), ""⟩
        else if isStrVal (dictGet kvs "role") "assistant"
            || isStrVal (dictGet kvs "role") "model" then
          ⟨"", strOrEmpty (dictGet kvs "content")⟩
        else
          ⟨"", ""⟩
      else
        match kvs.map Prod.snd with
        | v1 :: v2 :: _ => ⟨strOrEmpty v1, strOrEmpty v2⟩
        | [v1] => ⟨strOrEmpty v1, ""⟩
        | [] => ⟨"", ""⟩
  | _ => ⟨gStr item, ""⟩

/-- normalize_history (app.py lines 134-187).  The input raw_history or []
iterates nothing when the history is None, and otherwise appends exactly one
Turn per element. -/
def normalize_history (raw_history : Option (List GVal)) : List Turn :=
  match raw_history with
  | Option.none => []
  | some items => items.map normalizeItem

/-- The canonical wire form of an already-normalized Turn, as a raw history
value: the (user_msg, model_msg) tuple that normalize_history returns. -/
def turnToPy (t : Turn) : GVal :=
  GVal.vlist [GVal.vstr t.user_msg, GVal.vstr t.model_msg]

/-- One element of the parts list of a wire message built by chat. -/
structure MsgPart where
  text : String
deriving DecidableEq, Repr

/-- A wire message built by chat: a dict of the form
role ... parts [ text ... ] in app.py, lines 197-207. -/
structure Message where
  role : String
  parts : List MsgPart
deriving DecidableEq, Repr

/-- Builds one wire message, matching the dict literals in chat. -/
def mkMessage (role text : String) : Message :=
  ⟨role, [⟨text⟩]⟩

/-- The body of the history loop in chat (app.py lines 200-204): appends a
user message iff user_msg is non-empty, then a model message iff model_msg is
non-empty. -/
def appendTurn (acc : List Message) (t : Turn) : List Message :=
  let acc1 := if t.user_msg ≠ "" then acc ++ [mkMessage "user" t.user_msg] else acc
  if t.model_msg ≠ "" then acc1 ++ [mkMessage "model" t.model_msg] else acc1

/-- The full_history list chat submits to the provider (app.py lines
196-207): the system prompt as a first user message, the interleaved
normalized history, then the new message as a final user message. -/
def build_request (system_prompt : String) (history : Option (List GVal))
    (message : String) : List Message :=
  ((normalize_history history).foldl appendTurn [mkMessage "user" system_prompt])
    ++ [mkMessage "user" message]

/-- Python response.candidates[0] / indexing with 0, with the exceptions the
operation can raise as error values. -/
def indexZero : GVal → Except String GVal
  | GVal.vlist (x :: _) => Except.ok x
  | GVal.vlist [] => Except.error "IndexError: list index out of range"
  | GVal.vstr s =>
      match s.data with
      | c :: _ => Except.ok (GVal.vstr (String.mk [c]))
      | [] => Except.error "IndexError: string index out of range"
  | GVal.vdict _ => Except.error "KeyError: 0"
  | GVal.vnone => Except.error "TypeError: NoneType object is not subscriptable"
  | GVal.vobj _ _ => Except.error "TypeError: object is not subscriptable"

/-- Python iteration over a value (the for p in parts loop): lists yield
their elements, strings their characters, dicts their keys; other values are
not iterable and raise. -/
def gIter : GVal → Except String (List GVal)
  | GVal.vlist xs => Except.ok xs
  | GVal.vstr s => Except.ok (s.data.map (fun c => GVal.vstr (String.mk [c])))
  | GVal.vdict kvs => Except.ok (kvs.map (fun kv => GVal.vstr kv.1))
  | GVal.vnone => Except.error "TypeError: NoneType object is not iterable"
  | GVal.vobj _ _ => Except.error "TypeError: object is not iterable"

/-- The per-part text resolution in extract_text_from_response (app.py lines
117-120): for a dict part, p.get text or p.get content or the empty string;
for any other part the same chain through getattr. -/
def partText (p : GVal) : GVal :=
  match p with
  | GVal.vdict kvs => gOr (dictGet kvs "text") (gOr (dictGet kvs "content") (GVal.vstr ""))
  | _ => gOr (getattrD p "text") (gOr (getattrD p "content") (GVal.vstr ""))

/-- The assembly loop over parts (app.py lines 115-122): truthy string
contributions are concatenated in order, falsy ones skipped, and a truthy
non-string contribution raises a TypeError on the string concatenation. -/
def assembleParts : List GVal → String → Except String String
  | [], acc => Except.ok acc
  | p :: rest, acc =>
      if gTruthy (partText p) then
        match partText p with
        | GVal.vstr s => assembleParts rest (acc ++ s)
        | v => Except.error ("TypeError: can only concatenate str (not " ++ typeName v ++ ") to str")
      else assembleParts rest acc

/-- The body of the try block of extract_text_from_response (app.py lines
100-127), with every operation that can raise propagating an error value. -/
def extract_core (response_obj : GVal) : Except String GVal :=
  if gTruthy (getattrD response_obj "candidates") = false then
    Except.ok (GVal.vstr (gStr response_obj))
  else
    match indexZero (getattrD response_obj "candidates") with
    | Except.error e => Except.error e
    | Except.ok cand =>
        if gTruthy (getattrD (gOr (getattrD cand "content") cand) "text") then
          Except.ok (getattrD (gOr (getattrD cand "content") cand) "text")
        else
          if gTruthy (getattrD (gOr (getattrD cand "content") cand) "parts") then
            match gIter (getattrD (gOr (getattrD cand "content") cand) "parts") with
            | Except.error e => Except.error e
            | Except.ok ps =>
                match assembleParts ps "" with
                | Except.error e => Except.error e
                | Except.ok assembled =>
                    if assembled = "" then Except.ok (GVal.vstr (gStr cand))
                    else Except.ok (GVal.vstr assembled)
          else Except.ok (GVal.vstr (gStr cand))

/-- extract_text_from_response (app.py lines 95-130): the try block body,
with any raised exception caught and rendered as the bracketed diagnostic. -/
def extract_text_from_response (response_obj : GVal) : GVal :=
  match extract_core response_obj with
  | Except.ok v => v
  | Except.error e => GVal.vstr ("[Could not extract text from response: " ++ e ++ "]")

/-- The characters Python str.strip() removes by default. -/
def isPyWhitespace (c : Char) : Bool :=
  c = ' ' || c = '\t' || c = '\n' || c = '\r' || c = '\x0b' || c = '\x0c'

/-- Python s.strip(): removes leading and trailing whitespace. -/
def pyStrip (s : String) : String :=
  String.mk (((s.data.dropWhile isPyWhitespace).reverse.dropWhile isPyWhitespace).reverse)

/-- The tail of the try block in chat (app.py lines 214-217) applied to a
successful provider response: a falsy or whitespace-only extracted answer
produces the no-text diagnostic; a truthy non-string answer raises an
AttributeError at answer.strip(), which the enclosing except turns into an
error string. -/
def chatAnswer (response : GVal) : String :=
  if gTruthy (extract_text_from_response response) = false then
    "(no text extracted) " ++ gStr response
  else
    match extract_text_from_response response with
    | GVal.vstr s =>
        if pyStrip s = "" then "(no text extracted) " ++ gStr response else s
    | v =>
        "An error occurred: \x27" ++ typeName v ++ "\x27 object has no attribute \x27strip\x27"

/-- chat (app.py lines 191-220).  The provider call is the external
collaborator model.generate_content, modelled as a function from the built
request to either a response value or the description of a raised exception;
the system prompt, a process-wide constant in app.py, is a parameter. -/
def chat (provider : List Message → Except String GVal)
    (system_prompt message : String) (history : Option (List GVal)) : String :=
  match provider (build_request system_prompt history message) with
  | Except.error e => "An error occurred: " ++ e
  | Except.ok response => chatAnswer response

/-- String concatenation is associative; proved through the character data. -/
theorem strAppendAssoc (a b c : String) : a ++ b ++ c = a ++ (b ++ c) :=
  String.ext (by simp)

/-- The two messages a single normalized Turn contributes to the request, as
the spec describes them: a user message iff user_msg is non-empty, then a
model (assistant) message iff model_msg is non-empty. -/
def turnMessages (t : Turn) : List Message :=
  (if t.user_msg ≠ "" then [mkMessage "user" t.user_msg] else [])
    ++ (if t.model_msg ≠ "" then [mkMessage "model" t.model_msg] else [])

theorem appendTurn_eq (acc : List Message) (t : Turn) :
    appendTurn acc t = acc ++ turnMessages t := by
  unfold appendTurn turnMessages
  by_cases hu : t.user_msg = "" <;> by_cases hm : t.model_msg = "" <;> simp [hu, hm]

theorem foldl_appendTurn (ts : List Turn) (acc : List Message) :
    ts.foldl appendTurn acc = acc ++ (ts.map turnMessages).flatten := by
  induction ts generalizing acc with
  | nil => simp
  | cons t ts ih => simp [List.foldl_cons, appendTurn_eq, ih]

theorem build_request_eq (sp m : String) (h : Option (List GVal)) :
    build_request sp h m
      = mkMessage "user" sp
          :: (((normalize_history h).map turnMessages).flatten ++ [mkMessage "user" m]) := by
  unfold build_request
  rw [foldl_appendTurn]
  simp

theorem mem_turnMessages_role {msg : Message} {t : Turn} (h : msg ∈ turnMessages t) :
    msg.role = "user" ∨ msg.role = "model" := by
  unfold turnMessages at h
  by_cases hu : t.user_msg = "" <;> by_cases hm : t.model_msg = "" <;>
    simp [hu, hm, mkMessage] at h <;>
    first
    | (rcases h with h | h <;> rw [h])
    | rw [h]
  all_goals simp

theorem mem_flatten_turnMessages_role {msg : Message} {ts : List Turn}
    (h : msg ∈ (ts.map turnMessages).flatten) :
    msg.role = "user" ∨ msg.role = "model" := by
  rcases List.mem_flatten.1 h with ⟨l, hl, hmsg⟩
  rcases List.mem_map.1 hl with ⟨t, _, rfl⟩
  exact mem_turnMessages_role hmsg

theorem gOr_eq_right {a b : GVal} (h : gTruthy (gOr a b) = false) : gOr a b = b := by
  unfold gOr at h ⊢
  by_cases ha : gTruthy a <;> simp [ha] at h ⊢

theorem gOr_chain_falsy {x y : GVal}
    (h : gTruthy (gOr x (gOr y (GVal.vstr ""))) = false) :
    gOr x (gOr y (GVal.vstr "")) = GVal.vstr "" := by
  have h1 := gOr_eq_right h
  rw [h1] at h ⊢
  exact gOr_eq_right h

/-- A falsy part contribution is necessarily the empty string, because the
per-part chain ends in the empty string default. -/
theorem partText_falsy (p : GVal) (h : gTruthy (partText p) = false) :
    partText p = GVal.vstr "" := by
  cases p <;> exact gOr_chain_falsy h

/-- The concatenation the spec describes for the parts branch: for each part
in order, its resolved text when it is a string, else nothing. -/
def partsConcat : List GVal → String
  | [] => ""
  | p :: rest =>
      (match partText p with
       | GVal.vstr s => s
       | _ => "") ++ partsConcat rest

/-- Appending the empty string on the left is the identity. -/
theorem strEmptyAppend (s : String) : "" ++ s = s :=
  String.ext (by simp)

/-- When every part resolves to a string or to a falsy value, the assembly
loop succeeds and returns the in-order concatenation of the resolved texts. -/
theorem assembleParts_eq (ps : List GVal)
    (hps : ∀ p ∈ ps, (partText p).isStr = true ∨ gTruthy (partText p) = false) :
    ∀ acc : String, assembleParts ps acc = Except.ok (acc ++ partsConcat ps) := by
  induction ps with
  | nil => intro acc; simp [assembleParts, partsConcat]
  | cons p rest ih =>
      intro acc
      have hp := hps p (List.mem_cons_self p rest)
      have hrest := fun q hq => hps q (List.mem_cons_of_mem p hq)
      by_cases ht : gTruthy (partText p)
      · cases hpt : partText p with
        | vstr s =>
            rw [hpt] at ht
            simp [assembleParts, hpt, ht, partsConcat, ih hrest (acc ++ s), strAppendAssoc]
        | vnone => rw [hpt] at ht; simp [gTruthy] at ht
        | vlist xs => rw [hpt] at hp ht; simp [GVal.isStr, ht] at hp
        | vdict kvs => rw [hpt] at hp ht; simp [GVal.isStr, ht] at hp
        | vobj attrs r => rw [hpt] at hp ht; simp [GVal.isStr, ht] at hp
      · have h0 := partText_falsy p (by simpa using ht)
        simp [assembleParts, h0, partsConcat, gTruthy, ih hrest acc, strEmptyAppend]

/-- Normalizing the canonical pair form of a Turn gives back the same Turn. -/
theorem normalizeItem_turnToPy (t : Turn) : normalizeItem (turnToPy t) = t := rfl

/-- Whether a value is a Python sequence (list/tuple) or mapping, the shapes
the first six dispatch rules of the normalizer recognize. -/
def isSeqOrMap : GVal → Bool
  | GVal.vlist _ => true
  | GVal.vdict _ => true
  | _ => false

/-- C1: the message list chat builds is exactly one system-as-user message
first, then, for each normalized Turn in input order, a user message iff
user_msg is non-empty followed by a model message iff model_msg is non-empty,
then one user message carrying the new message unconditionally; for an absent
or empty history the request is exactly the 2-element sequence of system
message and new-message user turn. -/
theorem build_request_message_order (sp m : String) (h : Option (List GVal)) :
    build_request sp h m
        = mkMessage "user" sp
            :: (((normalize_history h).map turnMessages).flatten ++ [mkMessage "user" m])
      ∧ build_request sp Option.none m = [mkMessage "user" sp, mkMessage "user" m]
      ∧ build_request sp (some []) m = [mkMessage "user" sp, mkMessage "user" m] :=
  ⟨build_request_eq sp m h,
   by simp [build_request_eq, normalize_history],
   by simp [build_request_eq, normalize_history]⟩

/-- C3: whenever the provider call raises, chat returns the string
An error occurred: followed by the description of the exception; in
particular the result begins with that fixed text and no provider fault
escapes the chat boundary (chat is a total function into String). -/
theorem chat_provider_error_string (p : List Message → Except String GVal)
    (sp m : String) (h : Option (List GVal)) (e : String)
    (hp : p (build_request sp h m) = Except.error e) :
    chat p sp m h = "An error occurred: " ++ e
  ∧ ∃ r, chat p sp m h = "An error occurred:" ++ r := by
  have h1 : chat p sp m h = "An error occurred: " ++ e := by
    unfold chat
    rw [hp]
  have h2 : "An error occurred:" ++ " " = "An error occurred: " := rfl
  refine ⟨h1, " " ++ e, ?_⟩
  rw [h1, ← strAppendAssoc, h2]

theorem chat_provider_error_string_witness :
    chat (fun _ => Except.error "boom") "S" "hi" Option.none = "An error occurred: boom" :=
  (chat_provider_error_string (fun _ => Except.error "boom") "S" "hi" Option.none "boom" rfl).1

/-- C5: normalize_history is total over raw histories (defined for every
value shape), a None history maps to the empty sequence, exactly one Turn is
produced per input element, and the i-th output comes from the i-th input, so
input order is preserved. -/
theorem normalize_history_total (xs : List GVal) :
    normalize_history Option.none = []
  ∧ (normalize_history (some xs)).length = xs.length
  ∧ ∀ i : Nat, (normalize_history (some xs))[i]? = (xs[i]?).map normalizeItem := by
  refine ⟨rfl, by simp [normalize_history], fun i => ?_⟩
  simp [normalize_history]

/-- C6: the per-element dispatch of normalize_history follows the priority
list: sequences of length at least two take their stringified (null to
empty) first two elements and ignore the rest; singleton sequences fill only
user_text; dicts are dispatched on the key pairs user/assistant, then
sender/message (message goes to user_text iff sender equals user), then
role/content (user role to user_text, assistant or model role to
assistant_text, any other role an empty Turn), then fall back to their first
two values in iteration order; any non-sequence non-mapping value is
stringified into user_text; a present-but-null field becomes the empty
string. -/
theorem normalize_history_dispatch :
    (∀ x y rest, normalizeItem (GVal.vlist (x :: y :: rest)) = ⟨strOrEmpty x, strOrEmpty y⟩)
  ∧ (∀ x, normalizeItem (GVal.vlist [x]) = ⟨strOrEmpty x, ""⟩)
  ∧ (∀ kvs, hasKey kvs "user" = true → hasKey kvs "assistant" = true →
      normalizeItem (GVal.vdict kvs)
        = ⟨strOrEmpty (dictGet kvs "user"), strOrEmpty (dictGet kvs "assistant")⟩)
  ∧ (∀ kvs, (hasKey kvs "user" && hasKey kvs "assistant") = false →
      hasKey kvs "sender" = true → hasKey kvs "message" = true →
      normalizeItem (GVal.vdict kvs)
        = if isStrVal (dictGet kvs "sender") "user"
          then ⟨strOrEmpty (dictGet kvs "message"), ""⟩
          else ⟨"", strOrEmpty (dictGet kvs "message")⟩)
  ∧ (∀ kvs, (hasKey kvs "user" && hasKey kvs "assistant") = false →
      (hasKey kvs "sender" && hasKey kvs "message") = false →
      hasKey kvs "role" = true → hasKey kvs "content" = true →
      normalizeItem (GVal.vdict kvs)
        = if isStrVal (dictGet kvs "role") "user"
          then ⟨strOrEmpty (dictGet kvs "content"), ""⟩
          else if isStrVal (dictGet kvs "role") "assistant"
              || isStrVal (dictGet kvs "role") "model"
          then ⟨"", strOrEmpty (dictGet kvs "content")⟩
          else ⟨"", ""⟩)
  ∧ (∀ kvs, (hasKey kvs "user" && hasKey kvs "assistant") = false →
      (hasKey kvs "sender" && hasKey kvs "message") = false →
      (hasKey kvs "role" && hasKey kvs "content") = false →
      normalizeItem (GVal.vdict kvs)
        = match kvs.map Prod.snd with
          | v1 :: v2 :: _ => ⟨strOrEmpty v1, strOrEmpty v2⟩
          | [v1] => ⟨strOrEmpty v1, ""⟩
          | [] => ⟨"", ""⟩)
  ∧ (∀ v, isSeqOrMap v = false → normalizeItem v = ⟨gStr v, ""⟩)
  ∧ strOrEmpty GVal.vnone = "" ∧ (∀ s, strOrEmpty (GVal.vstr s) = s) := by
  refine ⟨fun x y rest => rfl, fun x => rfl, ?_, ?_, ?_, ?_, ?_, rfl, fun s => rfl⟩
  · intro kvs h1 h2
    simp [normalizeItem, h1, h2]
  · intro kvs h0 h1 h2
    simp [normalizeItem, h0, h1, h2]
  · intro kvs h0 h1 h2 h3
    simp [normalizeItem, h0, h1, h2, h3]
  · intro kvs h0 h1 h2
    simp [normalizeItem, h0, h1, h2]
  · intro v hv
    cases v <;> first | rfl | simp [isSeqOrMap] at hv

theorem normalize_history_dispatch_witness :
    normalizeItem (GVal.vdict [("user", GVal.vstr "u"), ("assistant", GVal.vnone)])
      = ⟨"u", ""⟩ :=
  normalize_history_dispatch.2.2.1 [("user", GVal.vstr "u"), ("assistant", GVal.vnone)] rfl rfl

/-- C7: every message of the built request carries one of the two wire roles
user and model, where the wire role model realizes the abstract assistant
role of the data model and the system instruction is the first message with
role user; the end-to-end scenario with system prompt P, history
[(Hi, Hello!)] and new message Bye builds exactly the four expected
messages. -/
theorem build_request_roles (sp m : String) (h : Option (List GVal)) :
    (∀ msg : Message, msg ∈ build_request sp h m → msg.role = "user" ∨ msg.role = "model")
  ∧ build_request "P" (some [GVal.vlist [GVal.vstr "Hi", GVal.vstr "Hello!"]]) "Bye"
      = [mkMessage "user" "P", mkMessage "user" "Hi",
         mkMessage "model" "Hello!", mkMessage "user" "Bye"] := by
  constructor
  · intro msg hmsg
    rw [build_request_eq] at hmsg
    rcases List.mem_cons.1 hmsg with hh | hmsg
    · left; rw [hh]; rfl
    · rcases List.mem_append.1 hmsg with hmsg | hmsg
      · exact mem_flatten_turnMessages_role hmsg
      · left; rw [List.mem_singleton.1 hmsg]; rfl
  · rfl

theorem build_request_roles_witness :
    (mkMessage "user" "P").role = "user" ∨ (mkMessage "user" "P").role = "model" :=
  (build_request_roles "P" "Bye" Option.none).1 (mkMessage "user" "P")
    (by rw [build_request_eq]; exact List.mem_cons_self _ _)

/-- C9: normalize_history is idempotent: feeding its output back as a raw
history of canonical (user_text, assistant_text) pairs returns the identical
sequence, because a pair of strings is matched by the first dispatch rule and
both fields are returned unchanged. -/
theorem normalize_history_idempotent (h : Option (List GVal)) :
    normalize_history (some ((normalize_history h).map turnToPy)) = normalize_history h := by
  cases h with
  | none => rfl
  | some items =>
      induction items with
      | nil => rfl
      | cons x rest ih =>
          simp only [normalize_history, List.map_cons] at ih ⊢
          rw [normalizeItem_turnToPy, ih]

/-- C10: in the parts assembly, the fallback from the text field of a part to
its content field is triggered by falsiness (empty string or null), not only
by absence: a part whose text value is present but falsy contributes its
content value, so the part with text empty and content b contributes b. -/
theorem part_text_content_fallback :
    (∀ tv c, gTruthy tv = false →
        partText (GVal.vdict [("text", tv), ("content", c)]) = gOr c (GVal.vstr ""))
  ∧ partText (GVal.vdict [("text", GVal.vstr ""), ("content", GVal.vstr "b")]) = GVal.vstr "b"
  ∧ partText (GVal.vdict [("text", GVal.vnone), ("content", GVal.vstr "b")]) = GVal.vstr "b"
  ∧ assembleParts [GVal.vdict [("text", GVal.vstr ""), ("content", GVal.vstr "b")]] ""
      = Except.ok "b" := by
  refine ⟨?_, rfl, rfl, rfl⟩
  intro tv c hfalsy
  simp [partText, dictGet, lookupKey, gOr, hfalsy]

theorem part_text_content_fallback_witness :
    partText (GVal.vdict [("text", GVal.vstr ""), ("content", GVal.vnone)])
      = gOr GVal.vnone (GVal.vstr "") :=
  part_text_content_fallback.1 (GVal.vstr "") GVal.vnone rfl

/-- A provider response whose first candidate carries a tab as its flat text,
so the extracted answer is whitespace-only and the whole response prints as
RESP. -/
def c8resp : GVal :=
  GVal.vobj [("candidates", GVal.vlist
    [GVal.vobj [("content", GVal.vobj [("text", GVal.vstr "\t")] "CONT")] "CAND"])] "RESP"

/-- C8 counterexample: on a successful provider call whose extracted text is
the whitespace-only string tab, chat returns the diagnostic
(no text extracted) RESP, which embeds the raw provider response but not the
extracted text: the returned string contains no tab character at all, so the
claim that the diagnostic embeds the extracted text alongside the raw
response fails. -/
theorem chat_empty_diag_counterexample :
    chat (fun _ => Except.ok c8resp) "S" "m" Option.none = "(no text extracted) RESP"
  ∧ extract_text_from_response c8resp = GVal.vstr "\t"
  ∧ "\t" ≠ ""
  ∧ ¬ ("\t".data <:+: "(no text extracted) RESP".data) :=
  ⟨rfl, rfl, by decide, by decide⟩

/-- C8 amended: whenever the provider call succeeds and the extracted text is
a string that is empty or whitespace-only, chat returns the diagnostic string
made of the fixed text (no text extracted) followed by the stringified raw
provider response; the extracted text itself is not part of the diagnostic. -/
theorem chat_empty_extraction_diagnostic (p : List Message → Except String GVal)
    (sp m : String) (h : Option (List GVal)) (resp : GVal) (s : String)
    (hp : p (build_request sp h m) = Except.ok resp)
    (he : extract_text_from_response resp = GVal.vstr s)
    (hs : pyStrip s = "") :
    chat p sp m h = "(no text extracted) " ++ gStr resp := by
  unfold chat
  rw [hp]
  show chatAnswer resp = "(no text extracted) " ++ gStr resp
  unfold chatAnswer
  rw [he]
  by_cases h0 : s = ""
  · simp [gTruthy, h0]
  · simp [gTruthy, h0, hs]

theorem chat_empty_extraction_diagnostic_witness :
    chat (fun _ => Except.ok c8resp) "S" "m" Option.none = "(no text extracted) RESP" :=
  chat_empty_extraction_diagnostic (fun _ => Except.ok c8resp) "S" "m" Option.none
    c8resp "\t" rfl rfl rfl

theorem gTruthy_nil : gTruthy (GVal.vlist []) = false := rfl

theorem gTruthy_cons (q : GVal) (qs : List GVal) : gTruthy (GVal.vlist (q :: qs)) = true := rfl

/-- A candidate whose content attribute is present but holds the empty
string, while the candidate itself carries the flat text field T. -/
def c2cand : GVal :=
  GVal.vobj [("content", GVal.vstr ""), ("text", GVal.vstr "T")] "CAND"

/-- A response wrapping c2cand as its only candidate. -/
def c2resp : GVal :=
  GVal.vobj [("candidates", GVal.vlist [c2cand])] "RESP"

/-- C2 counterexample: the claim resolves the content view as the nested
content field whenever it is present, and here that field is present (the
empty string), exposes no text and no parts, so the claim requires the
stringified first candidate CAND; the code instead falls back from the falsy
content field to the candidate itself and returns its flat text T. -/
theorem extract_content_view_counterexample :
    extract_text_from_response c2resp = GVal.vstr "T"
  ∧ getattrD c2cand "content" = GVal.vstr ""
  ∧ getattrD (GVal.vstr "") "text" = GVal.vnone
  ∧ getattrD (GVal.vstr "") "parts" = GVal.vnone
  ∧ gStr c2cand = "CAND"
  ∧ "T" ≠ "CAND" :=
  ⟨rfl, rfl, rfl, rfl, rfl, by decide⟩

/-- A response whose first candidate has content.text equal to hello. -/
def c2respHello : GVal :=
  GVal.vobj [("candidates", GVal.vlist
    [GVal.vobj [("content", GVal.vobj [("text", GVal.vstr "hello")] "CONT")] "CAND"])] "R"

/-- A response whose first candidate has content.parts equal to
[ text a, content b ]. -/
def c2respAB : GVal :=
  GVal.vobj [("candidates", GVal.vlist
    [GVal.vobj [("content", GVal.vobj [("parts", GVal.vlist
      [GVal.vdict [("text", GVal.vstr "a")],
       GVal.vdict [("content", GVal.vstr "b")]])] "CONT")] "CAND"])] "R"

/-- C2 amended: the ordered fallback of extract_text_from_response, first
match wins, with the content view resolved as the nested content field when
it is present and truthy (non-null, non-empty), else the candidate itself:
(1) a falsy candidates attribute returns the stringified whole response;
given candidates is a non-empty sequence with first candidate c, (3) a
non-empty flat text field of the content view is returned verbatim, (4) with
the text field falsy, a parts sequence whose per-part resolutions are strings
or falsy yields the in-order concatenation when non-empty and the stringified
first candidate when empty, and (5) a falsy parts field yields the
stringified first candidate; candidates[0].content.text hello yields exactly
hello, and parts [ text a, content b ] yields exactly ab. -/
theorem extract_fallback_priority (r : GVal) :
    (gTruthy (getattrD r "candidates") = false →
        extract_text_from_response r = GVal.vstr (gStr r))
  ∧ (∀ c rest, getattrD r "candidates" = GVal.vlist (c :: rest) →
        (∀ s, getattrD (gOr (getattrD c "content") c) "text" = GVal.vstr s → s ≠ "" →
            extract_text_from_response r = GVal.vstr s)
      ∧ (gTruthy (getattrD (gOr (getattrD c "content") c) "text") = false →
            (∀ ps, getattrD (gOr (getattrD c "content") c) "parts" = GVal.vlist ps →
                (∀ p ∈ ps, (partText p).isStr = true ∨ gTruthy (partText p) = false) →
                (partsConcat ps ≠ "" →
                    extract_text_from_response r = GVal.vstr (partsConcat ps))
              ∧ (partsConcat ps = "" →
                    extract_text_from_response r = GVal.vstr (gStr c)))
          ∧ (gTruthy (getattrD (gOr (getattrD c "content") c) "parts") = false →
              extract_text_from_response r = GVal.vstr (gStr c))))
  ∧ extract_text_from_response c2respHello = GVal.vstr "hello"
  ∧ extract_text_from_response c2respAB = GVal.vstr "ab" := by
  refine ⟨?_, ?_, rfl, rfl⟩
  · intro hfalsy
    simp [extract_text_from_response, extract_core, hfalsy]
  · intro c rest hc
    have h1 : extract_core r =
        (if gTruthy (getattrD (gOr (getattrD c "content") c) "text") then
          Except.ok (getattrD (gOr (getattrD c "content") c) "text")
        else if gTruthy (getattrD (gOr (getattrD c "content") c) "parts") then
          match gIter (getattrD (gOr (getattrD c "content") c) "parts") with
          | Except.error e => Except.error e
          | Except.ok ps =>
              match assembleParts ps "" with
              | Except.error e => Except.error e
              | Except.ok assembled =>
                  if assembled = "" then Except.ok (GVal.vstr (gStr c))
                  else Except.ok (GVal.vstr assembled)
        else Except.ok (GVal.vstr (gStr c))) := by
      unfold extract_core
      rw [hc]
      simp [gTruthy, indexZero]
    refine ⟨?_, ?_⟩
    · intro s hs hne
      simp [extract_text_from_response, h1, hs, gTruthy, hne]
    · intro hT
      refine ⟨?_, ?_⟩
      · intro ps hps hall
        cases ps with
        | nil =>
            refine ⟨fun hcon => absurd rfl hcon, fun _ => ?_⟩
            simp [extract_text_from_response, h1, hT, hps, gTruthy_nil]
        | cons q qs =>
            have hassemble := assembleParts_eq (q :: qs) hall ""
            rw [strEmptyAppend] at hassemble
            by_cases hempty : partsConcat (q :: qs) = ""
            · refine ⟨fun hcon => absurd hempty hcon, fun _ => ?_⟩
              simp [extract_text_from_response, h1, hT, hps, gTruthy_cons, gIter,
                hassemble, hempty]
            · refine ⟨fun _ => ?_, fun hcon => absurd hcon hempty⟩
              simp [extract_text_from_response, h1, hT, hps, gTruthy_cons, gIter,
                hassemble, hempty]
      · intro hparts
        simp [extract_text_from_response, h1, hT, hparts]

theorem extract_fallback_priority_witness :
    extract_text_from_response c2respHello = GVal.vstr "hello" :=
  (((extract_fallback_priority c2respHello).2.1
      (GVal.vobj [("content", GVal.vobj [("text", GVal.vstr "hello")] "CONT")] "CAND")
      [] rfl).1) "hello" rfl (by decide)

/-- A response whose first candidate carries a truthy non-string text field
(a non-empty list), which the code returns verbatim. -/
def c4resp : GVal :=
  GVal.vobj [("candidates", GVal.vlist
    [GVal.vobj [("content", GVal.vobj [("text", GVal.vlist [GVal.vstr "x"])] "CONT")] "CAND"])] "R"

/-- C4 counterexample: a response whose content view has a truthy non-string
text field makes extract_text_from_response return that value verbatim, so
the function does not return a string on every response object. -/
theorem extract_nonstring_return_counterexample :
    extract_text_from_response c4resp = GVal.vlist [GVal.vstr "x"]
  ∧ (extract_text_from_response c4resp).isStr = false :=
  ⟨rfl, rfl⟩

/-- A response whose candidates attribute is a truthy non-sequence object, so
subscripting it raises inside the extractor. -/
def c4errResp : GVal :=
  GVal.vobj [("candidates", GVal.vobj [] "CANDS")] "R"

/-- C4 amended: extract_text_from_response never propagates an exception (it
is total), and any internal exception is surfaced as the bracketed diagnostic
containing the exception description; its result is a string on every path
except when the content view exposes a truthy non-string text field, which is
returned verbatim. -/
theorem extract_never_propagates (r : GVal) :
    (∀ e, extract_core r = Except.error e →
        extract_text_from_response r
          = GVal.vstr ("[Could not extract text from response: " ++ e ++ "]"))
  ∧ ((extract_text_from_response r).isStr = true
      ∨ ∃ c rest, getattrD r "candidates" = GVal.vlist (c :: rest)
          ∧ gTruthy (getattrD (gOr (getattrD c "content") c) "text") = true
          ∧ extract_text_from_response r
              = getattrD (gOr (getattrD c "content") c) "text") := by
  constructor
  · intro e he
    simp [extract_text_from_response, he]
  · have key : (∃ s, extract_core r = Except.ok (GVal.vstr s))
        ∨ (∃ e, extract_core r = Except.error e)
        ∨ (∃ c rest, getattrD r "candidates" = GVal.vlist (c :: rest)
            ∧ gTruthy (getattrD (gOr (getattrD c "content") c) "text") = true
            ∧ extract_core r = Except.ok (getattrD (gOr (getattrD c "content") c) "text")) := by
      by_cases hc : gTruthy (getattrD r "candidates") = false
      · exact Or.inl ⟨gStr r, by simp [extract_core, hc]⟩
      · cases hidx : indexZero (getattrD r "candidates") with
        | error e => exact Or.inr (Or.inl ⟨e, by simp [extract_core, hc, hidx]⟩)
        | ok cand =>
            by_cases hT : gTruthy (getattrD (gOr (getattrD cand "content") cand) "text") = true
            · cases hcand : getattrD r "candidates" with
              | vnone => rw [hcand] at hc; simp [gTruthy] at hc
              | vstr s =>
                  rw [hcand] at hidx
                  cases hd : s.data with
                  | nil => simp [indexZero, hd] at hidx
                  | cons ch tl =>
                      simp [indexZero, hd] at hidx
                      rw [← hidx] at hT
                      simp [getattrD, gOr, gTruthy] at hT
              | vlist xs =>
                  cases xs with
                  | nil => rw [hcand] at hc; simp [gTruthy] at hc
                  | cons c rest =>
                      rw [hcand] at hidx
                      simp [indexZero] at hidx
                      rw [← hidx] at hT
                      refine Or.inr (Or.inr ⟨c, rest, rfl, hT, ?_⟩)
                      simp [extract_core, hcand, indexZero, hT, gTruthy_cons]
              | vdict kvs => rw [hcand] at hidx; simp [indexZero] at hidx
              | vobj attrs rep => rw [hcand] at hidx; simp [indexZero] at hidx
            · by_cases hP : gTruthy (getattrD (gOr (getattrD cand "content") cand) "parts") = true
              · cases hit : gIter (getattrD (gOr (getattrD cand "content") cand) "parts") with
                | error e =>
                    exact Or.inr (Or.inl ⟨e, by simp [extract_core, hc, hidx, hT, hP, hit]⟩)
                | ok ps =>
                    cases has : assembleParts ps "" with
                    | error e =>
                        exact Or.inr (Or.inl ⟨e,
                          by simp [extract_core, hc, hidx, hT, hP, hit, has]⟩)
                    | ok assembled =>
                        by_cases hA : assembled = ""
                        · exact Or.inl ⟨gStr cand,
                            by simp [extract_core, hc, hidx, hT, hP, hit, has, hA]⟩
                        · exact Or.inl ⟨assembled,
                            by simp [extract_core, hc, hidx, hT, hP, hit, has, hA]⟩
              · exact Or.inl ⟨gStr cand, by simp [extract_core, hc, hidx, hT, hP]⟩
    rcases key with ⟨s, hs⟩ | ⟨e, he⟩ | ⟨c, rest, hcand, hT, hcore⟩
    · left; simp [extract_text_from_response, hs, GVal.isStr]
    · left; simp [extract_text_from_response, he, GVal.isStr]
    · right; exact ⟨c, rest, hcand, hT, by simp [extract_text_from_response, hcore]⟩

theorem extract_never_propagates_witness :
    extract_text_from_response c4errResp
      = GVal.vstr ("[Could not extract text from response: "
          ++ "TypeError: object is not subscriptable" ++ "]") :=
  (extract_never_propagates c4errResp).1 "TypeError: object is not subscriptable" rfl
